import Mathlib

/-!
Shallow embedding of the automation scripts of the SublimeLinter
package_control_channel repository: `fetch_all_repos.py`,
`check-if-head-is-released.py`, and `tests/test_sanity.py`.

External effects (subprocess invocations, the directory listing, directory
removal) are modelled by explicit oracles passed in as data, so that every
worker and the whole run become total functions whose behaviour over all
oracle outcomes can be settled by proof.
-/

namespace PackageChannel

/-- Whitespace as recognised by Python `str.strip`. -/
def isPySpace (c : Char) : Bool :=
  c = ' ' || c = '\t' || c = '\n' || c = '\r' || c = '\x0b' || c = '\x0c'

/-- Model of Python `str.strip()`: drop leading and trailing whitespace. -/
def pyStrip (s : String) : String :=
  String.mk (((s.data.dropWhile isPySpace).reverse.dropWhile isPySpace).reverse)

/-- Model of Python `str.lower()` on the character list (ASCII folding, which is
what the registry names use). -/
def pyLower (s : String) : String :=
  String.mk (s.data.map Char.toLower)

/-- Splitting a character list at every slash, as Python `url.split('/')`:
`rsplit('/')` with no maxsplit yields the same segments. -/
def splitSlash : List Char → List (List Char)
  | [] => [[]]
  | c :: cs =>
    let rest := splitSlash cs
    if c = '/' then [] :: rest
    else
      match rest with
      | [] => [[c]]
      | seg :: tail => (c :: seg) :: tail

/-- Model of Python `url.rsplit('/')[-1]`: the final path segment. -/
def lastSegment (s : String) : String :=
  String.mk ((splitSlash s.data).getLastD [])

/-- Truthiness of a Python `Optional[str]`: `None` and the empty string are
falsy; this is the test made by `package['name'] or ...` and
`if not package['name']`. -/
def falsy : Option String → Bool
  | none => true
  | some s => s == ""

/-- Package descriptor as produced by `extract_urls`:
`{'url': p['details'], 'name': p.get('name')}`. -/
structure Package where
  name : Option String
  url : String
deriving DecidableEq

/-- Result record (the `Result` TypedDict of fetch_all_repos.py). The
`messages` key is absent for clone/pull results and read back with
`r.get('messages', [])`; absence is modelled as the empty list. -/
structure Result where
  mode : String
  url : String
  success : Bool
  messages : List String
deriving DecidableEq

/-- Outcome of one `subprocess.check_output` invocation: a normal return
carrying stdout, or a `CalledProcessError` carrying the captured output. -/
inductive ProcResult where
  | ok (output : String)
  | err (output : String)
deriving DecidableEq

/-- Model of `execute`: `subprocess.check_output` returns stdout, or raises
`CalledProcessError` on a non-zero exit (modelled as `Except.error`). -/
def execute (proc : ProcResult) : Except String String :=
  match proc with
  | .ok out => Except.ok out
  | .err out => Except.error out

/-- Model of `get_name`: `package['name'] or package['url'].rsplit('/')[-1]`. -/
def get_name (package : Package) : String :=
  if falsy package.name then lastSegment package.url else package.name.getD ""

/-- Model of the `catch_errors` decorator: a `CalledProcessError` escaping the
wrapped worker is replaced by `{'mode': fn.__name__, 'url': ..., 'success': False}`. -/
def catch_errors (mode : String) (package : Package)
    (body : Except String Result) : Result :=
  match body with
  | .ok r => r
  | .error _ => ⟨mode, package.url, false, []⟩

/-- Model of the `pull` worker: `git pull` inside the existing checkout;
wrapped by `catch_errors`. -/
def pull (proc : ProcResult) (package : Package) : Result :=
  catch_errors "pull" package
    ((execute proc).map (fun _ => ⟨"pull", package.url, true, []⟩))

/-- Model of the `clone` worker: `git clone url name` into the destination;
wrapped by `catch_errors`. -/
def clone (proc : ProcResult) (package : Package) : Result :=
  catch_errors "clone" package
    ((execute proc).map (fun _ => ⟨"clone", package.url, true, []⟩))

/-- Model of `clone_or_pull`: pull when `dest/name/.git` exists, else clone.
The existence test is an oracle argument. -/
def clone_or_pull (gitDirExists : Bool) (proc : ProcResult)
    (package : Package) : Result :=
  if gitDirExists then pull proc package else clone proc package

/-- Model of the `check` worker: `git ls-remote url`; the output of a failing
invocation becomes a message, a falsy package name adds the message
`No package name specified`, and success holds iff there are no messages. -/
def check (proc : ProcResult) (package : Package) : Result :=
  let messages : List String :=
    match execute proc with
    | .error out => [out]
    | .ok _ => []
  let messages :=
    messages ++ (if falsy package.name then ["No package name specified"] else [])
  ⟨"check", package.url, messages.isEmpty, messages⟩

/-- One entry of a registry JSON file: `{"details": url, "name"?: str}`. -/
structure Entry where
  details : String
  name : Option String
deriving DecidableEq

/-- A registry JSON file: `{"packages": [...]}`. -/
structure RegistryFile where
  packages : List Entry
deriving DecidableEq

/-- Model of `extract_urls`: yield `{'url': p['details'], 'name': p.get('name')}`
for each entry of the file. -/
def extract_urls (file : RegistryFile) : List Package :=
  file.packages.map (fun p => ⟨p.name, p.details⟩)

/-- Hard-coded self-referential URL excluded from the package list. -/
def SL_URL : String := "https://github.com/SublimeLinter/SublimeLinter"

/-- Model of the module-level `packages` list:
`[package for file in FILES for package in extract_urls(file) if package['url'] != SL_URL]`. -/
def packagesOf (files : List RegistryFile) : List Package :=
  (files.flatMap extract_urls).filter (fun package => package.url != SL_URL)

/-- Inputs and external-world oracles of one run of fetch_all_repos.py.
`listing` models `os.listdir(DEST_DIR)` (duplicate-free, as a directory
listing is); `destDirExists` models `os.path.exists(DEST_DIR)`;
`gitDirExists name` models `os.path.exists(os.path.join(dest, name, '.git'))`;
`proc package` is the outcome of the one git subprocess the worker runs for
that package; `rmOk dir` tells whether `shutil.rmtree` succeeds on `dir`. -/
structure Env where
  checkMode : Bool
  files : List RegistryFile
  destDirExists : Bool
  listing : List String
  gitDirExists : String → Bool
  proc : Package → ProcResult
  rmOk : String → Bool

/-- Model of `removed_packages`:
`set(os.listdir(DEST_DIR)) - {get_name(package) for package in packages}`. -/
def removed_packages (env : Env) : List String :=
  env.listing.filter
    (fun d => !(((packagesOf env.files).map get_name).contains d))

/-- Filesystem mutations of the destination directory tree. -/
inductive Action where
  | mkdirs (dir : String)
  | rmtree (dir : String)
  | cloneRepo (url : String) (name : String)
  | pullRepo (name : String)
deriving DecidableEq

/-- Mutating filesystem operations of one run, in program order:
`ensure_dir(DEST_DIR)` runs only outside check mode and only when the
directory is missing; the orphan sweep attempts `shutil.rmtree` on every
member of `removed_packages` unconditionally (a successful removal is a
mutation); outside check mode each package then gets one clone or pull. -/
def mutations (env : Env) : List Action :=
  (if !env.checkMode && !env.destDirExists then [Action.mkdirs "DEST_DIR"] else [])
  ++ ((removed_packages env).filter env.rmOk).map Action.rmtree
  ++ (if env.checkMode then []
      else (packagesOf env.files).map (fun package =>
        if env.gitDirExists (get_name package) then Action.pullRepo (get_name package)
        else Action.cloneRepo package.url (get_name package)))

/-- Model of `failed = [r for r in results if not r['success']]`. -/
def failed (results : List Result) : List Result :=
  results.filter (fun r => !r.success)

/-- Model of `checked = [r for r in results if r['mode'] == 'check' and r['success']]`,
counted for the `Checked N repositories` report line. -/
def checkedCount (results : List Result) : Nat :=
  (results.filter (fun r => r.mode == "check" && r.success)).length

/-- Observable outcome of one run of fetch_all_repos.py. -/
structure RunOutcome where
  results : List Result
  removed : List String
  removalErrors : List String
  exitCode : Nat
deriving DecidableEq

/-- Model of one run: load the registry, sweep orphans (removals that fail
raise inside the `try`, are printed, and the loop continues), run the
per-package action (check in check mode, otherwise clone_or_pull), and exit
with status 1 iff `failed` is non-empty, 0 otherwise. -/
def run (env : Env) : RunOutcome :=
  let packages := packagesOf env.files
  let orphans := removed_packages env
  let results := packages.map (fun package =>
    if env.checkMode then check (env.proc package) package
    else clone_or_pull (env.gitDirExists (get_name package)) (env.proc package) package)
  ⟨results,
   orphans.filter env.rmOk,
   orphans.filter (fun d => !env.rmOk d),
   if (failed results).isEmpty then 0 else 1⟩

/-- Record of check-if-head-is-released.py: the directory name plus the tag
key when `git describe --exact-match --tags` succeeded; no tag key otherwise. -/
structure HeadRecord where
  name : String
  tag : Option String
deriving DecidableEq

/-- Model of `describe_head`: run the exact-match describe query in the
checkout; a `CalledProcessError` yields a record without a tag key, success
stores the stripped output under the tag key. -/
def describe_head (proc : ProcResult) (name : String) : HeadRecord :=
  match execute proc with
  | .error _ => ⟨name, none⟩
  | .ok out => ⟨name, some (pyStrip out)⟩

/-- Model of the report loops of check-if-head-is-released.py: records with a
tag print `name  tag`, then records without a tag print
`name  release pending`. -/
def reportLines (results : List HeadRecord) : List String :=
  (results.filter (fun r => r.tag.isSome)).map
    (fun r => r.name ++ "  " ++ r.tag.getD "")
  ++ (results.filter (fun r => r.tag.isNone)).map
    (fun r => r.name ++ "  release pending")

/-- Model of `package_name` from tests/test_sanity.py:
`(p.get("name") or p["details"].rsplit("/", 1)[-1]).lower()` (the last element
of a maxsplit-1 right split is the final path segment). -/
def package_name (p : Entry) : String :=
  pyLower (if falsy p.name then lastSegment p.details else p.name.getD "")

/-- Lexicographic order on character lists by code point, the order Python
uses to compare strings. -/
def lexLe : List Char → List Char → Bool
  | [], _ => true
  | _ :: _, [] => false
  | a :: as, b :: bs => if a = b then lexLe as bs else decide (a < b)

/-- Python string comparison, fed to the sorting model as the key order. -/
def strLe (a b : String) : Bool := lexLe a.data b.data

/-- Boolean statement that consecutive elements of a list are ordered by a
string key; the sortedness predicate used to state the claims. -/
def chainLe (key : α → String) : List α → Bool
  | [] => true
  | [_] => true
  | x :: y :: rest => strLe (key x) (key y) && chainLe key (y :: rest)

/-- Model of `test_sorted` from tests/test_sanity.py: every registry file
equals itself sorted by `package_name` (Python `sorted` is a stable merge
sort by key). -/
def test_sorted (repos : List RegistryFile) : Prop :=
  ∀ r ∈ repos,
    r.packages =
      r.packages.mergeSort (fun p q => strLe (package_name p) (package_name q))

/-- Boolean statement that a package list carries no two descriptors with the
same URL. -/
def noDupUrls : List Package → Bool
  | [] => true
  | p :: rest => !((rest.map Package.url).contains p.url) && noDupUrls rest

/-- Concrete registry of claim C1's end-to-end scenario: three packages, the
second of which has an invalid URL (its `git ls-remote` fails), run in check
mode over an existing, empty destination directory. -/
def envC1 : Env :=
  ⟨true,
   [⟨[⟨"https://a", some "A"⟩, ⟨"https://b", some "B"⟩, ⟨"https://c", some "C"⟩]⟩],
   true, [],
   fun _ => false,
   fun package =>
     if package.url == "https://b" then ProcResult.err "fatal: repository not found"
     else ProcResult.ok "",
   fun _ => true⟩

/-- Concrete check-mode run with one orphan directory on disk. -/
def envC2 : Env :=
  ⟨true, [], true, ["orphan"], fun _ => false, fun _ => ProcResult.ok "",
   fun _ => true⟩

/-- Concrete registry input holding the same URL twice. -/
def filesC3 : List RegistryFile :=
  [⟨[⟨"https://host/x", some "a"⟩, ⟨"https://host/x", some "b"⟩]⟩]

/-- Concrete registry input of two files, each sorted by display name, whose
flattened concatenation is not in name order. -/
def filesC4 : List RegistryFile :=
  [⟨[⟨"https://host/b", some "b"⟩]⟩, ⟨[⟨"https://host/a", some "a"⟩]⟩]

theorem run_exitCode (env : Env) :
    (run env).exitCode = if (failed (run env).results).isEmpty then 0 else 1 :=
  rfl

theorem exit_one_iff (b : Bool) : (if b then (0 : Nat) else 1) = 1 ↔ b = false := by
  cases b <;> simp

theorem exit_zero_iff (b : Bool) : (if b then (0 : Nat) else 1) = 0 ↔ b = true := by
  cases b <;> simp

theorem failed_isEmpty_iff (results : List Result) :
    (failed results).isEmpty = true ↔ ∀ r ∈ results, r.success = true := by
  simp [failed, List.isEmpty_iff, List.filter_eq_nil_iff]

theorem lexLe_total (as bs : List Char) : lexLe as bs = true ∨ lexLe bs as = true := by
  induction as generalizing bs with
  | nil => exact Or.inl rfl
  | cons a as ih =>
    cases bs with
    | nil => exact Or.inr rfl
    | cons b bs =>
      by_cases hab : a = b
      · subst hab
        rcases ih bs with h | h
        · exact Or.inl (by simpa [lexLe] using h)
        · exact Or.inr (by simpa [lexLe] using h)
      · rcases lt_or_gt_of_ne hab with h | h
        · exact Or.inl (by simp [lexLe, hab, h])
        · exact Or.inr (by simp [lexLe, Ne.symm hab, h])

theorem lexLe_trans :
    ∀ as bs cs : List Char,
      lexLe as bs = true → lexLe bs cs = true → lexLe as cs = true
  | [], _, _, _, _ => rfl
  | _ :: _, [], _, h, _ => by simp [lexLe] at h
  | _ :: _, _ :: _, [], _, h => by simp [lexLe] at h
  | a :: as, b :: bs, c :: cs, h1, h2 => by
    by_cases hab : a = b
    · subst hab
      by_cases hac : a = c
      · subst hac
        simp only [lexLe, if_pos rfl] at h1 h2 ⊢
        exact lexLe_trans as bs cs h1 h2
      · simpa [lexLe, hac] using h2
    · have h1lt : a < b := by simpa [lexLe, hab] using h1
      by_cases hbc : b = c
      · subst hbc
        have : a ≠ b := hab
        simpa [lexLe, hab] using h1
      · have h2lt : b < c := by simpa [lexLe, hbc] using h2
        have hac : a < c := lt_trans h1lt h2lt
        simp [lexLe, ne_of_lt hac, hac]

theorem strLe_total (a b : String) : strLe a b = true ∨ strLe b a = true :=
  lexLe_total a.data b.data

theorem strLe_trans (a b c : String) :
    strLe a b = true → strLe b c = true → strLe a c = true :=
  lexLe_trans a.data b.data c.data

theorem chainLe_iff_pairwise (key : α → String) :
    ∀ l : List α,
      chainLe key l = true ↔
        l.Pairwise (fun x y => strLe (key x) (key y) = true)
  | [] => by simp [chainLe]
  | [x] => by simp [chainLe]
  | x :: y :: rest => by
    have ih := chainLe_iff_pairwise key (y :: rest)
    simp only [chainLe, Bool.and_eq_true] at *
    constructor
    · rintro ⟨hxy, hchain⟩
      have hp := ih.mp hchain
      refine List.Pairwise.cons ?_ hp
      intro z hz
      rcases List.mem_cons.mp hz with rfl | hz
      · exact hxy
      · exact strLe_trans _ _ _ hxy (List.rel_of_pairwise_cons hp hz)
    · intro hp
      rcases List.pairwise_cons.mp hp with ⟨hx, hrest⟩
      exact ⟨hx y (by simp), ih.mpr hrest⟩

theorem mergeSort_eq_self_iff_chainLe (key : α → String) (l : List α) :
    l.mergeSort (fun p q => strLe (key p) (key q)) = l ↔
      chainLe key l = true := by
  constructor
  · intro h
    rw [chainLe_iff_pairwise]
    have hs := @List.sorted_mergeSort _ (fun p q => strLe (key p) (key q))
      (fun a b c => strLe_trans (key a) (key b) (key c))
      (fun a b => by
        rcases strLe_total (key a) (key b) with h | h <;> simp [h]) l
    rwa [h] at hs
  · intro h
    exact List.mergeSort_of_sorted ((chainLe_iff_pairwise key l).mp h)

/-- C5: for every package and every outcome of the external git process, the
clone_or_pull worker returns a result record (it is a total function into
`Result`: `catch_errors` turns the `CalledProcessError` of a failing process
into data); the record carries the package's URL, succeeds exactly when the
process exits zero, and a non-zero exit yields a failure record with
`success = false` rather than an exception. -/
theorem C5_clone_or_pull (gitDirExists : Bool) (proc : ProcResult)
    (package : Package) :
    ((clone_or_pull gitDirExists proc package).success = true ↔
      ∃ out, proc = ProcResult.ok out) ∧
    (clone_or_pull gitDirExists proc package).url = package.url ∧
    (∀ out, proc = ProcResult.err out →
      clone_or_pull gitDirExists proc package =
        ⟨if gitDirExists then "pull" else "clone", package.url, false, []⟩) := by
  cases proc <;> cases gitDirExists <;>
    simp [clone_or_pull, pull, clone, catch_errors, execute, Except.map]

theorem C5_clone_or_pull_witness :
    clone_or_pull true (ProcResult.err "fatal: could not read") ⟨some "n", "https://u"⟩ =
      ⟨"pull", "https://u", false, []⟩ :=
  (C5_clone_or_pull true (ProcResult.err "fatal: could not read")
    ⟨some "n", "https://u"⟩).2.2 "fatal: could not read" rfl

/-- C6 counterexample: the descriptor `{'name': '', 'url': 'https://host/a/b'}`
has an explicit name field (the empty string), yet its display name is not
that explicit name — `get_name` falls back to the URL segment. -/
theorem C6_counterexample :
    (Package.mk (some "") "https://host/a/b").name = some "" ∧
    get_name ⟨some "", "https://host/a/b"⟩ ≠ "" := by decide

/-- C6 amended: the display name equals the explicit name field when a
non-empty one is given, and equals the final path segment of the URL when the
field is absent or empty. -/
theorem C6_amended (package : Package) :
    (∀ s, package.name = some s → s ≠ "" → get_name package = s) ∧
    ((package.name = none ∨ package.name = some "") →
      get_name package = lastSegment package.url) := by
  constructor
  · intro s hs hne
    simp [get_name, falsy, hs, hne]
  · rintro (h | h) <;> simp [get_name, falsy, h]

theorem C6_amended_witness :
    get_name ⟨some "X", "https://host/a/b"⟩ = "X" ∧
    get_name ⟨none, "https://host/a/b"⟩ = lastSegment "https://host/a/b" :=
  ⟨(C6_amended ⟨some "X", "https://host/a/b"⟩).1 "X" rfl (by decide),
   (C6_amended ⟨none, "https://host/a/b"⟩).2 (Or.inl rfl)⟩

/-- C7 counterexample: a descriptor whose name field is present (but empty)
and whose `git ls-remote` succeeds still yields `success = false`, though the
claim's two failure conditions (query failure, missing name field) are both
absent. -/
theorem C7_counterexample :
    (Package.mk (some "") "https://host/x").name ≠ none ∧
    (check (ProcResult.ok "refs") ⟨some "", "https://host/x"⟩).success = false := by
  decide

/-- C7 amended: the check worker fails exactly when the remote query exits
non-zero or the descriptor's name is falsy (absent or empty); a failing
result carries a non-empty messages list, and a falsy name contributes the
message `No package name specified`. -/
theorem C7_amended (proc : ProcResult) (package : Package) :
    ((check proc package).success = false ↔
      (∃ out, proc = ProcResult.err out) ∨ falsy package.name = true) ∧
    ((check proc package).success = false →
      (check proc package).messages ≠ []) ∧
    (falsy package.name = true →
      "No package name specified" ∈ (check proc package).messages) := by
  cases proc <;> cases h : falsy package.name <;> simp [check, execute, h]

theorem C7_amended_witness :
    (check (ProcResult.err "fatal: repository not found")
      ⟨some "pkg", "https://u"⟩).success = false ∧
    "No package name specified" ∈ (check (ProcResult.ok "") ⟨none, "https://u"⟩).messages :=
  ⟨((C7_amended (ProcResult.err "fatal: repository not found")
      ⟨some "pkg", "https://u"⟩).1).mpr (Or.inl ⟨"fatal: repository not found", rfl⟩),
   (C7_amended (ProcResult.ok "") ⟨none, "https://u"⟩).2.2 rfl⟩

/-- C8: a describe_head record without a tag key arises exactly from a failing
exact-match query and is reported as `release pending`; a successful query
stores its (stripped) output in the tag key, and the report prints that tag
string verbatim next to the name. -/
theorem C8_describe_head (results : List HeadRecord) (r : HeadRecord)
    (hr : r ∈ results) :
    (r.tag = none → (r.name ++ "  release pending") ∈ reportLines results) ∧
    (∀ t, r.tag = some t → (r.name ++ "  " ++ t) ∈ reportLines results) ∧
    (∀ proc name,
      (describe_head proc name).tag = none ↔ ∃ out, proc = ProcResult.err out) ∧
    (∀ out name,
      describe_head (ProcResult.ok out) name = ⟨name, some (pyStrip out)⟩) := by
  refine ⟨fun h => ?_, fun t ht => ?_, fun proc name => ?_, fun out name => rfl⟩
  · exact List.mem_append_right _
      (List.mem_map.mpr ⟨r, List.mem_filter.mpr ⟨hr, by simp [h]⟩, by simp⟩)
  · exact List.mem_append_left _
      (List.mem_map.mpr ⟨r, List.mem_filter.mpr ⟨hr, by simp [ht]⟩, by simp [ht]⟩)
  · cases proc <;> simp [describe_head, execute]

theorem C8_describe_head_witness :
    ("pkg" ++ "  release pending") ∈ reportLines [⟨"pkg", none⟩] ∧
    ("tagged" ++ "  " ++ "v1.0") ∈ reportLines [⟨"tagged", some "v1.0"⟩] :=
  ⟨(C8_describe_head [⟨"pkg", none⟩] ⟨"pkg", none⟩ (by decide)).1 rfl,
   (C8_describe_head [⟨"tagged", some "v1.0"⟩] ⟨"tagged", some "v1.0"⟩
     (by decide)).2.1 "v1.0" rfl⟩

/-- C1: a run exits with status 1 exactly when some collected result record
has `success = false` and with status 0 exactly when every result record has
`success = true`; in the concrete scenario of a registry of three packages of
which exactly one URL is invalid, the report counts 2 successes and 1 failure
and the run exits with status 1. -/
theorem C1_exit_code (env : Env) :
    ((run env).exitCode = 1 ↔ ∃ r ∈ (run env).results, r.success = false) ∧
    ((run env).exitCode = 0 ↔ ∀ r ∈ (run env).results, r.success = true) ∧
    checkedCount (run envC1).results = 2 ∧
    (failed (run envC1).results).length = 1 ∧
    (run envC1).exitCode = 1 := by
  refine ⟨?_, ?_, by decide, by decide, by decide⟩
  · rw [run_exitCode, exit_one_iff]
    rw [show ((failed (run env).results).isEmpty = false ↔
          ¬(failed (run env).results).isEmpty = true) by simp]
    rw [failed_isEmpty_iff]
    push_neg
    constructor
    · rintro ⟨r, hr, hs⟩
      exact ⟨r, hr, by simpa using hs⟩
    · rintro ⟨r, hr, hs⟩
      exact ⟨r, hr, by simp [hs]⟩
  · rw [run_exitCode, exit_zero_iff, failed_isEmpty_iff]

theorem C1_exit_code_witness :
    (run envC1).exitCode = 1 ∧ checkedCount (run envC1).results = 2 :=
  ⟨((C1_exit_code envC1).1).mpr
      ⟨⟨"check", "https://b", false, ["fatal: repository not found"]⟩,
       by decide, rfl⟩,
   (C1_exit_code envC1).2.2.1⟩

/-- C2 counterexample: a check-mode run over a destination directory holding
one orphan entry performs a directory removal, so check mode is not free of
mutations of the destination tree. -/
theorem C2_counterexample :
    envC2.checkMode = true ∧ mutations envC2 = [Action.rmtree "orphan"] := by
  decide

/-- C2 amended: with the check flag given, the run performs no clone, no pull
and no directory creation; the only mutations of the destination tree are the
removals of the orphan sweep, which runs unconditionally. -/
theorem C2_check_mode (env : Env) (h : env.checkMode = true) :
    mutations env = ((removed_packages env).filter env.rmOk).map Action.rmtree ∧
    (∀ a ∈ mutations env, ∃ d, a = Action.rmtree d) := by
  have hm : mutations env =
      ((removed_packages env).filter env.rmOk).map Action.rmtree := by
    simp [mutations, h]
  refine ⟨hm, ?_⟩
  intro a ha
  rw [hm] at ha
  rcases List.mem_map.mp ha with ⟨d, _, rfl⟩
  exact ⟨d, rfl⟩

theorem C2_check_mode_witness :
    mutations envC2 =
      ((removed_packages envC2).filter envC2.rmOk).map Action.rmtree :=
  (C2_check_mode envC2 rfl).1

/-- C3 counterexample: a registry input whose one file lists the same URL
twice produces a package list carrying two descriptors with the same URL —
the loader does not deduplicate. -/
theorem C3_counterexample :
    noDupUrls (packagesOf filesC3) = false ∧
    (packagesOf filesC3).map Package.url = ["https://host/x", "https://host/x"] := by
  decide

/-- C3 amended: the package list is the flattened concatenation of the files'
package entries with every descriptor whose URL equals the hard-coded
SublimeLinter URL excluded; duplicates are retained (each remaining
descriptor keeps its multiplicity from the concatenation). -/
theorem C3_amended (files : List RegistryFile) :
    (∀ package ∈ packagesOf files, package.url ≠ SL_URL) ∧
    (∀ package : Package,
      (packagesOf files).count package =
        if package.url = SL_URL then 0
        else (files.flatMap extract_urls).count package) := by
  constructor
  · intro p hp
    have h := (List.mem_filter.mp hp).2
    simpa using h
  · intro p
    by_cases h : p.url = SL_URL
    · rw [if_pos h]
      refine List.count_eq_zero.mpr ?_
      intro hmem
      have h2 := (List.mem_filter.mp hmem).2
      simp [h] at h2
    · rw [if_neg h]
      exact List.count_filter (by simpa using h)

theorem C3_amended_witness :
    (Package.mk (some "a") "https://host/x").url ≠ SL_URL ∧
    (packagesOf filesC3).count ⟨some "a", "https://host/x"⟩ =
      (filesC3.flatMap extract_urls).count ⟨some "a", "https://host/x"⟩ := by
  refine ⟨(C3_amended filesC3).1 ⟨some "a", "https://host/x"⟩ (by decide), ?_⟩
  have h := (C3_amended filesC3).2 ⟨some "a", "https://host/x"⟩
  rwa [if_neg (by decide)] at h

/-- C4 counterexample: two registry files that are each sorted by lowercased
display name (so that test_sorted passes) still yield an unsorted flattened
package list — the loader never sorts. -/
theorem C4_counterexample :
    test_sorted filesC4 ∧
    chainLe (fun package => pyLower (get_name package)) (packagesOf filesC4) =
      false := by
  constructor
  · intro r hr
    refine ((mergeSort_eq_self_iff_chainLe package_name r.packages).mpr ?_).symm
    rcases List.mem_cons.mp hr with rfl | hr
    · decide
    rcases List.mem_cons.mp hr with rfl | hr
    · decide
    · simp at hr
  · decide

/-- C4 amended: the loader emits packages in the files' own order and does not
sort; ordering by lowercased display name is instead a per-file invariant of
the registry, checked by test_sorted of the test suite, which passes exactly
when every registry file's package list has consecutive entries ordered by
lowercased display name. -/
theorem C4_amended (repos : List RegistryFile) :
    test_sorted repos ↔ ∀ r ∈ repos, chainLe package_name r.packages = true := by
  unfold test_sorted
  constructor
  · intro h r hr
    exact (mergeSort_eq_self_iff_chainLe package_name r.packages).mp
      ((h r hr).symm)
  · intro h r hr
    exact ((mergeSort_eq_self_iff_chainLe package_name r.packages).mpr
      (h r hr)).symm

theorem C4_amended_witness :
    test_sorted [⟨[⟨"https://host/a", some "a"⟩, ⟨"https://host/b", some "b"⟩]⟩] :=
  (C4_amended [⟨[⟨"https://host/a", some "a"⟩, ⟨"https://host/b", some "b"⟩]⟩]).mpr
    (by decide)

/-- C9: the orphan sweep removes exactly the listed entries of the destination
directory whose names are not among the display names of the current
registry's packages (those whose removal raises are logged as removal errors
instead), and neither the collected results nor the exit status depend on the
removal oracle — a removal error does not abort the run or change the exit
status. -/
theorem C9_orphan_cleanup (env : Env) :
    (∀ d, d ∈ (run env).removed ↔
      d ∈ env.listing ∧ d ∉ (packagesOf env.files).map get_name ∧
        env.rmOk d = true) ∧
    (∀ d, d ∈ (run env).removalErrors ↔
      d ∈ env.listing ∧ d ∉ (packagesOf env.files).map get_name ∧
        env.rmOk d = false) ∧
    (∀ rm : String → Bool,
      (run ⟨env.checkMode, env.files, env.destDirExists, env.listing,
        env.gitDirExists, env.proc, rm⟩).results = (run env).results ∧
      (run ⟨env.checkMode, env.files, env.destDirExists, env.listing,
        env.gitDirExists, env.proc, rm⟩).exitCode = (run env).exitCode) := by
  refine ⟨fun d => ?_, fun d => ?_, fun rm => ⟨rfl, rfl⟩⟩
  · show d ∈ (removed_packages env).filter env.rmOk ↔ _
    simp [removed_packages, List.mem_filter]
    tauto
  · show d ∈ (removed_packages env).filter (fun x => !env.rmOk x) ↔ _
    simp [removed_packages, List.mem_filter]
    tauto

theorem C9_orphan_cleanup_witness :
    "orphan" ∈ (run envC2).removed :=
  ((C9_orphan_cleanup envC2).1 "orphan").mpr ⟨by decide, by decide, rfl⟩

/-- C10: a descriptor whose explicit name field is present but empty does not
use the explicit name: `get_name` tests the name for falsiness, so the empty
string falls back to the URL's final path segment, exactly as an absent name
does. -/
theorem C10_empty_name_falls_back (url : String) :
    get_name ⟨some "", url⟩ = lastSegment url ∧
    get_name ⟨some "", url⟩ = get_name ⟨none, url⟩ := by
  constructor <;> simp [get_name, falsy]

end PackageChannel
